import Mathlib

/-!
Shallow embedding of the cc_cut flag-binding library (src/flags.rs, with the
list value adapters of src/main.rs and src/lib.rs) and proofs about the
specification's claims.

Strings are modelled by Lean `String` (a list of unicode chars, matching Rust
`String` contents); Rust byte-slicing `name[..1]` is modelled as a partial
operation that fails (panics) on an empty string or a leading non-ASCII char.
Rust panics are modelled as a dedicated outcome constructor.  The type-generic
`Value` trait is instantiated at the closed set of slot types the repository
actually binds: `String`, `i32`, `char`, `bool`, and the list-of-`i32` adapter
(`ArgList` in main.rs / `List` in lib.rs, both with identical code).
-/

namespace CcCut

/-- Closed set of bound-slot value kinds used by the repository. -/
inductive Val where
  | vstr (s : String)
  | vint (n : Int)
  | vchar (c : Char)
  | vbool (b : Bool)
  | vlist (l : List Int)
deriving DecidableEq

/-- Scalar kinds are the ones covered by the blanket `impl Value for T`
in flags.rs; the list kind has its own dedicated impl. -/
def isScalar : Val → Bool
  | .vlist _ => false
  | _ => true

/-- Error kinds of Rust `i32::from_str` (core::num::ParseIntError). -/
inductive IntErrKind where
  | empty
  | invalidDigit
  | posOverflow
  | negOverflow
deriving DecidableEq

/-- Debug rendering of ParseIntError, as produced by the blanket impl's
format string in flags.rs. -/
def intErrDebug : IntErrKind → String
  | .empty => "ParseIntError { kind: Empty }"
  | .invalidDigit => "ParseIntError { kind: InvalidDigit }"
  | .posOverflow => "ParseIntError { kind: PosOverflow }"
  | .negOverflow => "ParseIntError { kind: NegOverflow }"

/-- Display rendering of ParseIntError, as produced by `err.to_string()`
in the list adapters of main.rs and lib.rs. -/
def intErrDisplay : IntErrKind → String
  | .empty => "cannot parse integer from empty string"
  | .invalidDigit => "invalid digit found in string"
  | .posOverflow => "number too large to fit in target type"
  | .negOverflow => "number too small to fit in target type"

def i32Min : Int := -2147483648
def i32Max : Int := 2147483647

/-- Digit-accumulation loop of Rust `i32::from_str`: per char, first the
digit check, then the checked multiply-add with overflow detection. -/
def i32Go (neg : Bool) : List Char → Int → Except IntErrKind Int
  | [], acc => .ok acc
  | c :: cs, acc =>
    if c.isDigit then
      let d : Int := (c.toNat - '0'.toNat : Nat)
      let acc2 := if neg then acc * 10 - d else acc * 10 + d
      if acc2 < i32Min then .error .negOverflow
      else if i32Max < acc2 then .error .posOverflow
      else i32Go neg cs acc2
    else .error .invalidDigit

/-- Rust `i32::from_str`: optional sign, then one or more ASCII digits,
with i32-range overflow checking. -/
def parseI32 (s : String) : Except IntErrKind Int :=
  match s.data with
  | [] => .error .empty
  | c :: cs =>
    let (neg, digits) :=
      if c = '-' then (true, cs)
      else if c = '+' then (false, cs)
      else (false, c :: cs)
    match digits with
    | [] => .error .invalidDigit
    | _ => i32Go neg digits 0

/-- Rust `char::from_str`: exactly one char. -/
def parseRustChar (s : String) : Except String Char :=
  match s.data with
  | [c] => .ok c
  | [] => .error "CharTryFromError(())"
  | _ => .error "CharTryFromError(())"

/-- Rust `bool::from_str`: exactly the strings true and false. -/
def parseRustBool (s : String) : Except String Bool :=
  if s = "true" then .ok true
  else if s = "false" then .ok false
  else .error "ParseBoolError"

/-- One decimal digit char. -/
def digitChar (n : Nat) : Char :=
  match n with
  | 0 => '0' | 1 => '1' | 2 => '2' | 3 => '3' | 4 => '4'
  | 5 => '5' | 6 => '6' | 7 => '7' | 8 => '8' | _ => '9'

/-- Decimal digits of a natural number, most significant first, with fuel
(fuel `n+1` always suffices). -/
def natDigits : Nat → Nat → List Char → List Char
  | 0, _, acc => acc
  | fuel + 1, n, acc =>
    let acc2 := digitChar (n % 10) :: acc
    if n < 10 then acc2 else natDigits fuel (n / 10) acc2

/-- Rust `Display` for an i32: optional minus sign then decimal digits. -/
def renderInt (n : Int) : String :=
  if n < 0 then String.mk ('-' :: natDigits (n.natAbs + 1) n.natAbs [])
  else String.mk (natDigits (n.natAbs + 1) n.natAbs [])

/-- Rust `Display` rendering (`self.to_string()`) of each scalar slot kind;
the list adapters have no Display impl, hence `none`. -/
def renderVal : Val → Option String
  | .vstr s => some s
  | .vint n => some (renderInt n)
  | .vchar c => some (String.mk [c])
  | .vbool b => some (if b then "true" else "false")
  | .vlist _ => none

/-- Strip one leading quote char, as `arg.strip_prefix` with a double quote
does in the list adapters. -/
def stripQuoteStart (l : List Char) : List Char :=
  match l with
  | '\"' :: rest => rest
  | _ => l

/-- Strip one trailing quote char, as `arg.strip_suffix` with a double quote
does in the list adapters. -/
def stripQuoteEnd (l : List Char) : List Char :=
  if l.getLast? = some '\"' then l.dropLast else l

/-- Element loop of the list adapters' `parse_from_string`: each part is
parsed as an i32 and pushed; the first failing part stops the loop, with the
already-pushed elements kept (in-place mutation). -/
def listParseGo (acc : List Int) : List (List Char) → List Int × Option String
  | [] => (acc, none)
  | part :: rest =>
    match parseI32 (String.mk part) with
    | .ok n => listParseGo (acc ++ [n]) rest
    | .error e => (acc, some (intErrDisplay e))

/-- `ArgList::parse_from_string` (main.rs) = `List::parse_from_string`
(lib.rs), instantiated at i32 elements as in the repository's tests: strip
surrounding quotes, split on comma if present else on space, parse and push
each part. -/
def listParseFromString (l : List Int) (s : String) : List Int × Option String :=
  let chars := stripQuoteEnd (stripQuoteStart s.data)
  let sep := if ',' ∈ chars then ',' else ' '
  listParseGo l (chars.splitOn sep)

/-- `Value::parse_from_string`: dispatch of the blanket impl (scalars defer
to the type's own `from_str`, overwriting the slot only on success, with the
error's Debug rendering) and of the list adapters (partial pushes kept).
Returns the new slot value and an error message on failure. -/
def parseFromString (v : Val) (s : String) : Val × Option String :=
  match v with
  | .vstr _ => (.vstr s, none)
  | .vint _ =>
    match parseI32 s with
    | .ok n => (.vint n, none)
    | .error e => (v, some (intErrDebug e))
  | .vchar _ =>
    match parseRustChar s with
    | .ok c => (.vchar c, none)
    | .error e => (v, some e)
  | .vbool _ =>
    match parseRustBool s with
    | .ok b => (.vbool b, none)
    | .error e => (v, some e)
  | .vlist l =>
    match listParseFromString l s with
    | (l2, res) => (.vlist l2, res)

/-- `Value::try_activate`: the blanket impl checks the slot's current
Display rendering and, when it is exactly true or false, re-parses the
literal string true into the slot; the list adapters always fail with the
same message. -/
def tryActivate (v : Val) : Val × Option String :=
  match renderVal v with
  | some t =>
    if t = "true" ∨ t = "false" then parseFromString v "true"
    else (v, some "bound value should be of type bool")
  | none => (v, some "bound value should be of type bool")

/-- A registered flag: canonical name, bound slot, usage text
(struct `Flag` in flags.rs, with the two `ValueRef` ownership variants
collapsed since both behave identically under `parse`). -/
structure FlagEntry where
  name : String
  val : Val
  usage : String
deriving DecidableEq

/-- The `FlagSet` map from lookup key to flag, modelled as an association
list (HashMap iteration order is never observed by `parse`). -/
abbrev Registry := List (String × FlagEntry)

/-- HashMap `get`: first entry with the given key. -/
def lookupFlag : Registry → String → Option FlagEntry
  | [], _ => none
  | (k, e) :: rest, n => if k = n then some e else lookupFlag rest n

/-- Write a new slot value through HashMap `get_mut`: replaces the value of
the first entry with the given key, leaving keys and names unchanged. -/
def setVal : Registry → String → Val → Registry
  | [], _, _ => []
  | (k, e) :: rest, n, v =>
    if k = n then (k, ⟨e.name, v, e.usage⟩) :: rest
    else (k, e) :: setVal rest n v

/-- Rust `&name[..1]`: the one-byte slice of a string, valid only when the
string is nonempty and its first char is ASCII; `none` models the panic. -/
def firstByteSlice (s : String) : Option String :=
  match s.data with
  | [] => none
  | c :: _ => if c.toNat < 128 then some (String.mk [c]) else none

/-- `FlagSet::bind_mut_ref` / `bind_ref_cell`: register a slot under the
full name, or under its first byte when a short alias is allowed; `none`
models the two panics (byte slice of an unsuitable name, duplicate key). -/
def bindFlag (reg : Registry) (flag : String) (allowShort : Bool) (v : Val)
    (usage : String) : Option Registry :=
  match (if allowShort then firstByteSlice flag else some flag) with
  | none => none
  | some key =>
    if (lookupFlag reg key).isSome then none
    else some (reg ++ [(key, ⟨flag, v, usage⟩)])

/-- `FlagSet::has_flag`: a registered key, or a flag registered under the
first byte of `name` whose canonical name is exactly `name`; `none` models
the panic of the byte slice. -/
def hasFlag (reg : Registry) (name : String) : Option Bool :=
  if (lookupFlag reg name).isSome then some true
  else
    match firstByteSlice name with
    | none => none
    | some pre =>
      match lookupFlag reg pre with
      | some flag => some (flag.name = name)
      | none => some false

/-- Char-list prefix test (Rust `str::starts_with`). -/
def charsStartWith : List Char → List Char → Bool
  | _, [] => true
  | [], _ :: _ => false
  | c :: cs, p :: ps => if c = p then charsStartWith cs ps else false

def strStartsWith (s p : String) : Bool :=
  charsStartWith s.data p.data

/-- Drop the first `n` chars (`strip_prefix` of an ASCII prefix of length
`n` in chars equals dropping `n` bytes). -/
def strDropChars (s : String) (n : Nat) : String :=
  String.mk (s.data.drop n)

/-- Translation of `parse_name` in flags.rs: strip a leading double dash,
else a leading single dash, else not flag-shaped. -/
def parseName (value : String) : Option String :=
  if strStartsWith value "--" then some (strDropChars value 2)
  else if strStartsWith value "-" then some (strDropChars value 1)
  else none

/-- `FlagError` in flags.rs. -/
inductive FlagError where
  | UnknownFlag (name : String)
  | ParseError (name msg : String)
deriving DecidableEq

/-- Result of a whole `parse` call: the positional tokens plus the final
slot states, a flag error plus the slot states at the abort, or a panic. -/
inductive ParseOutcome where
  | ok (remaining : List String) (reg : Registry)
  | error (e : FlagError) (reg : Registry)
  | panicked
deriving DecidableEq

/-- A halted iteration of the parse loop (early return). -/
inductive Halted where
  | panicked
  | err (e : FlagError) (reg : Registry)
deriving DecidableEq

def haltedOutcome : Halted → ParseOutcome
  | .panicked => .panicked
  | .err e reg => .error e reg

/-- Result of the per-letter cluster loop in `FlagSet::parse`
(lines 178-190 of flags.rs). -/
inductive ClusterRes where
  | panicked
  | unknown (reg : Registry)
  | done (reg : Registry)
deriving DecidableEq

/-- The cluster loop: for each letter of the stripped name, `has_flag` on
the one-letter string must hold (else UnknownFlag / panic), and a resolving
letter's slot gets a tolerated `try_activate` attempt. -/
def clusterLoop (reg : Registry) : List Char → ClusterRes
  | [] => .done reg
  | c :: cs =>
    let sn := String.mk [c]
    match hasFlag reg sn with
    | none => .panicked
    | some false => .unknown reg
    | some true =>
      match lookupFlag reg sn with
      | some e => clusterLoop (setVal reg sn (tryActivate e.val).1) cs
      | none => clusterLoop reg cs

/-- The activations a cluster performs on its resolving letters, as a plain
fold (used to name the registry a partial cluster run produces). -/
def clusterActivate (reg : Registry) : List Char → Registry
  | [] => reg
  | c :: cs =>
    let sn := String.mk [c]
    match lookupFlag reg sn with
    | some e => clusterActivate (setVal reg sn (tryActivate e.val).1) cs
    | none => clusterActivate reg cs

/-- Lines 193-199 of flags.rs: after scanning a flag token (and any cluster
loop), the pending flag becomes the stripped name, and when the name itself
maps to an entry a successful activation clears the pending flag again.
Returns the updated registry and the pending-flag state. -/
def afterCluster (reg : Registry) (name : String) : Registry × Option String :=
  match lookupFlag reg name with
  | some e =>
    match tryActivate e.val with
    | (v2, none) => (setVal reg name v2, none)
    | (v2, some _) => (setVal reg name v2, some name)
  | none => (reg, some name)

/-- One iteration step of the loop: continue with updated flag map, tokens
pushed to the positional output by this step, pending-flag state and
passthrough marker — or halt (early return). -/
inductive StepRes where
  | cont (reg : Registry) (emit : List String) (fl : Option String) (afp : Bool)
  | halt (h : Halted)
deriving DecidableEq

/-- One iteration of the `for arg in args` loop of `FlagSet::parse`:
`fl` the pending flag name, `afp` the all-flags-parsed passthrough marker
(the positional output is only ever appended to, so it is returned as the
step's emitted tokens rather than threaded through). -/
def parseStep (reg : Registry) (fl : Option String) (afp : Bool)
    (arg : String) : StepRes :=
  if afp then .cont reg [arg] fl true
  else if arg = "--" then .cont reg [arg] fl true
  else
    match fl with
    | some name =>
      match lookupFlag reg name with
      | some e =>
        match parseFromString e.val arg with
        | (v2, none) => .cont (setVal reg name v2) [] none false
        | (v2, some msg) =>
          .halt (.err (.ParseError name msg) (setVal reg name v2))
      | none => .cont reg [] none false
    | none =>
      match parseName arg with
      | some name =>
        match hasFlag reg name with
        | none => .halt .panicked
        | some true =>
          match afterCluster reg name with
          | (reg2, fl2) => .cont reg2 [] fl2 false
        | some false =>
          match clusterLoop reg name.data with
          | .panicked => .halt .panicked
          | .unknown reg2 => .halt (.err (.UnknownFlag name) reg2)
          | .done reg2 =>
            match afterCluster reg2 name with
            | (reg3, fl2) => .cont reg3 [] fl2 false
      | none => .cont reg [arg] none true

/-- The loop of `FlagSet::parse`; an exhausted stream returns the positional
list (any pending flag silently dropped). -/
def parseLoop (reg : Registry) (rem : List String) (fl : Option String)
    (afp : Bool) : List String → ParseOutcome
  | [] => .ok rem reg
  | a :: rest =>
    match parseStep reg fl afp a with
    | .cont reg2 emit fl2 afp2 => parseLoop reg2 (rem ++ emit) fl2 afp2 rest
    | .halt h => haltedOutcome h

/-- `FlagSet::parse`: fresh loop state per call. -/
def parse (reg : Registry) (args : List String) : ParseOutcome :=
  parseLoop reg [] none false args

/-- Result of running the loop's steps without finishing: the final loop
state (flag map, positional output, pending flag, passthrough marker), or
the halt the loop took. -/
inductive RunRes where
  | cont (reg : Registry) (rem : List String) (fl : Option String) (afp : Bool)
  | halt (h : Halted)
deriving DecidableEq

/-- Run the loop's steps without finishing, exposing the final loop state
(used to speak about the state the stream ends in). -/
def runSteps (reg : Registry) (rem : List String) (fl : Option String)
    (afp : Bool) : List String → RunRes
  | [] => .cont reg rem fl afp
  | a :: rest =>
    match parseStep reg fl afp a with
    | .cont reg2 emit fl2 afp2 => runSteps reg2 (rem ++ emit) fl2 afp2 rest
    | .halt h => .halt h

/-- Sequential composition of outcomes: prefix the first call's positionals
onto a second call's successful outcome. -/
def seqCombine (rem1 : List String) : ParseOutcome → ParseOutcome
  | .ok rem2 reg2 => .ok (rem1 ++ rem2) reg2
  | .error e reg2 => .error e reg2
  | .panicked => .panicked

/-- The two-boolean-flag registry of the clustering scenarios, slots still
false (binding `a` and `b` without short aliases). -/
def regABf : Registry :=
  [("a", ⟨"a", .vbool false, ""⟩), ("b", ⟨"b", .vbool false, ""⟩)]

/-- The two-boolean-flag registry after both slots were activated. -/
def regABt : Registry :=
  [("a", ⟨"a", .vbool true, ""⟩), ("b", ⟨"b", .vbool true, ""⟩)]

/-! Helper lemmas about the loop structure. -/

/-- Once the passthrough marker is set, every remaining token is emitted
verbatim and the loop succeeds. -/
theorem parseLoop_passthrough (args : List String) :
    ∀ (reg : Registry) (rem : List String) (fl : Option String),
      parseLoop reg rem fl true args = .ok (rem ++ args) reg := by
  induction args with
  | nil => intro reg rem fl; simp [parseLoop]
  | cons a rest ih =>
    intro reg rem fl
    simp [parseLoop, parseStep, ih]

/-- The loop is the state run followed by the final success return. -/
theorem parseLoop_eq_runSteps (args : List String) :
    ∀ reg rem fl afp,
      parseLoop reg rem fl afp args =
        match runSteps reg rem fl afp args with
        | .cont r rm _ _ => .ok rm r
        | .halt h => haltedOutcome h := by
  induction args with
  | nil => intro reg rem fl afp; simp [parseLoop, runSteps]
  | cons a rest ih =>
    intro reg rem fl afp
    rw [parseLoop, runSteps]
    cases hstep : parseStep reg fl afp a with
    | cont r em f a2 => exact ih ..
    | halt h => rfl

/-- The state run splits at any decomposition of the token stream. -/
theorem runSteps_append (s1 : List String) :
    ∀ s2 reg rem fl afp,
      runSteps reg rem fl afp (s1 ++ s2) =
        match runSteps reg rem fl afp s1 with
        | .cont r rm f a2 => runSteps r rm f a2 s2
        | .halt h => .halt h := by
  induction s1 with
  | nil => intros; simp [runSteps]
  | cons a rest ih =>
    intro s2 reg rem fl afp
    rw [List.cons_append, runSteps, runSteps]
    cases hstep : parseStep reg fl afp a with
    | cont r em f a2 => exact ih ..
    | halt h => rfl

/-- The positional output already accumulated is inert: it is only a prefix
of whatever the remaining steps produce. -/
theorem runSteps_rem (args : List String) :
    ∀ reg rem0 rem fl afp,
      runSteps reg (rem0 ++ rem) fl afp args =
        match runSteps reg rem fl afp args with
        | .cont r rm f a2 => .cont r (rem0 ++ rm) f a2
        | .halt h => .halt h := by
  induction args with
  | nil => intros; simp [runSteps]
  | cons a rest ih =>
    intro reg rem0 rem fl afp
    rw [runSteps, runSteps]
    cases hstep : parseStep reg fl afp a with
    | cont r em f a2 =>
      dsimp only
      rw [List.append_assoc]
      exact ih ..
    | halt h => rfl

/-- Writing a slot value keeps keys, presence and canonical names of all
entries: lookup after `setVal` only sees the changed value. -/
theorem lookupFlag_setVal (reg : Registry) (k : String) (v : Val) (n : String) :
    lookupFlag (setVal reg k v) n =
      match lookupFlag reg n with
      | none => none
      | some e => some (if k = n then ⟨e.name, v, e.usage⟩ else e) := by
  induction reg with
  | nil => simp [lookupFlag, setVal]
  | cons he rest ih =>
    obtain ⟨k0, e0⟩ := he
    by_cases h1 : k0 = k
    · subst h1
      by_cases h2 : k0 = n
      · subst h2
        simp [lookupFlag, setVal]
      · simp only [lookupFlag, setVal, if_pos rfl, if_neg h2]
        cases lookupFlag rest n <;> simp [show ¬(k0 = n) from h2]
    · by_cases h2 : k0 = n
      · subst h2
        simp [lookupFlag, setVal, h1, show ¬(k = k0) from fun hh => h1 hh.symm]
      · simp [lookupFlag, setVal, h1, h2, ih]

/-- `has_flag` only inspects keys and canonical names, so slot writes do not
change it. -/
theorem hasFlag_setVal (reg : Registry) (k : String) (v : Val) (n : String) :
    hasFlag (setVal reg k v) n = hasFlag reg n := by
  simp only [hasFlag, lookupFlag_setVal]
  cases h1 : lookupFlag reg n with
  | some e => simp
  | none =>
    simp only [Option.isSome_none, Bool.false_eq_true, if_false]
    cases h2 : firstByteSlice n with
    | none => simp
    | some pre =>
      cases h3 : lookupFlag reg pre with
      | none => simp [h3]
      | some e => by_cases h4 : k = pre <;> simp [h4, h3]

/-- A cluster whose letters all resolve runs to completion, performing
exactly the fold of tolerated activations. -/
theorem clusterLoop_done (cs : List Char) :
    ∀ reg : Registry, (∀ x ∈ cs, hasFlag reg (String.mk [x]) = some true) →
      clusterLoop reg cs = .done (clusterActivate reg cs) := by
  induction cs with
  | nil => intro reg _; simp [clusterLoop, clusterActivate]
  | cons c rest ih =>
    intro reg h
    have hc : hasFlag reg (String.mk [c]) = some true := h c (by simp)
    simp only [clusterLoop, clusterActivate, hc]
    cases hl : lookupFlag reg (String.mk [c]) with
    | some e =>
      exact ih _ (fun x hx => by
        rw [hasFlag_setVal]; exact h x (by simp [hx]))
    | none => exact ih reg (fun x hx => h x (by simp [hx]))

/-- A cluster stops at its first cleanly unresolvable letter, after having
activated the letters before it. -/
theorem clusterLoop_unknown (c : Char) (post : List Char) :
    ∀ (pre : List Char) (reg : Registry),
      (∀ x ∈ pre, hasFlag reg (String.mk [x]) = some true) →
      hasFlag reg (String.mk [c]) = some false →
      clusterLoop reg (pre ++ c :: post) = .unknown (clusterActivate reg pre) := by
  intro pre
  induction pre with
  | nil => intro reg _ hc; simp [clusterLoop, clusterActivate, hc]
  | cons p rest ih =>
    intro reg h hc
    have hp : hasFlag reg (String.mk [p]) = some true := h p (by simp)
    simp only [List.cons_append, clusterLoop, clusterActivate, hp]
    cases hl : lookupFlag reg (String.mk [p]) with
    | some e =>
      exact ih _ (fun x hx => by
          rw [hasFlag_setVal]; exact h x (by simp [hx]))
        (by rw [hasFlag_setVal]; exact hc)
    | none => exact ih reg (fun x hx => h x (by simp [hx])) hc

/-- A scanning step on a flag-shaped token whose name does not resolve and
whose cluster hits a cleanly unresolvable letter halts with UnknownFlag. -/
theorem parseStep_cluster_unknown
    (reg : Registry) (arg name : String) (pre : List Char) (c : Char)
    (post : List Char)
    (h1 : arg ≠ "--") (h2 : parseName arg = some name)
    (h3 : hasFlag reg name = some false)
    (h4 : name.data = pre ++ c :: post)
    (h5 : ∀ x ∈ pre, hasFlag reg (String.mk [x]) = some true)
    (h6 : hasFlag reg (String.mk [c]) = some false) :
    parseStep reg none false arg =
      .halt (.err (.UnknownFlag name) (clusterActivate reg pre)) := by
  simp [parseStep, h1, h2, h3, h4, clusterLoop_unknown c post pre reg h5 h6]

/-! Helper lemmas about the rendering of scalar slots. -/

/-- Decimal digit chars are digits. -/
theorem digitChar_isDigit (n : Nat) : (digitChar n).isDigit = true := by
  unfold digitChar
  split <;> decide

/-- Every char produced by the digit loop is a digit or came from the
accumulator. -/
theorem natDigits_mem (fuel : Nat) :
    ∀ (n : Nat) (acc : List Char) (c : Char),
      c ∈ natDigits fuel n acc → c ∈ acc ∨ c.isDigit = true := by
  induction fuel with
  | zero => intro n acc c hc; exact Or.inl hc
  | succ fuel ih =>
    intro n acc c hc
    simp only [natDigits] at hc
    by_cases hn : n < 10
    · rw [if_pos hn] at hc
      rcases List.mem_cons.mp hc with h | h
      · exact Or.inr (h ▸ digitChar_isDigit (n % 10))
      · exact Or.inl h
    · rw [if_neg hn] at hc
      rcases ih (n / 10) _ c hc with h | h
      · rcases List.mem_cons.mp h with h2 | h2
        · exact Or.inr (h2 ▸ digitChar_isDigit (n % 10))
        · exact Or.inl h2
      · exact Or.inr h

/-- Rendered integers consist of a minus sign and digits only. -/
theorem renderInt_chars (n : Int) (c : Char) (h : c ∈ (renderInt n).data) :
    c = '-' ∨ c.isDigit = true := by
  unfold renderInt at h
  by_cases hn : n < 0
  · rw [if_pos hn] at h
    rcases List.mem_cons.mp h with h2 | h2
    · exact Or.inl h2
    · rcases natDigits_mem _ _ _ _ h2 with h3 | h3
      · simp at h3
      · exact Or.inr h3
  · rw [if_neg hn] at h
    rcases natDigits_mem _ _ _ _ h with h3 | h3
    · simp at h3
    · exact Or.inr h3

/-- An integer never renders as the string true. -/
theorem renderInt_ne_true (n : Int) : renderInt n ≠ "true" := by
  intro h
  have hmem : ('t' : Char) ∈ (renderInt n).data := by
    rw [h]; decide
  rcases renderInt_chars n 't' hmem with h2 | h2 <;> revert h2 <;> decide

/-- An integer never renders as the string false. -/
theorem renderInt_ne_false (n : Int) : renderInt n ≠ "false" := by
  intro h
  have hmem : ('f' : Char) ∈ (renderInt n).data := by
    rw [h]; decide
  rcases renderInt_chars n 'f' hmem with h2 | h2 <;> revert h2 <;> decide

/-- A one-char string is never the string true. -/
theorem mkSingle_ne_true (c : Char) : String.mk [c] ≠ "true" := by
  intro h
  have h2 : [c].length = (("true" : String).data).length :=
    congrArg (fun s => s.data.length) h
  rw [show (("true" : String).data).length = 4 from by decide] at h2
  simp at h2

/-- A one-char string is never the string false. -/
theorem mkSingle_ne_false (c : Char) : String.mk [c] ≠ "false" := by
  intro h
  have h2 : [c].length = (("false" : String).data).length :=
    congrArg (fun s => s.data.length) h
  rw [show (("false" : String).data).length = 5 from by decide] at h2
  simp at h2

/-- Activating an integer slot always fails and leaves it unchanged. -/
theorem tryActivate_vint (n : Int) :
    tryActivate (.vint n) =
      (.vint n, some "bound value should be of type bool") := by
  simp [tryActivate, renderVal, renderInt_ne_true n, renderInt_ne_false n]

/-- Activating a char slot always fails and leaves it unchanged. -/
theorem tryActivate_vchar (c : Char) :
    tryActivate (.vchar c) =
      (.vchar c, some "bound value should be of type bool") := by
  simp [tryActivate, renderVal, mkSingle_ne_true c, mkSingle_ne_false c]

/-! Claim theorems. -/

/-- C1 (corrected): contrary to the claim, the double-dash token itself IS
emitted into the positional output — `parse(["--", "--looks-like-flag"])`
returns both tokens, not just the second. -/
theorem c1_counterexample :
    parse [] ["--", "--looks-like-flag"] =
      ParseOutcome.ok ["--", "--looks-like-flag"] [] ∧
    (["--", "--looks-like-flag"] : List String) ≠ ["--looks-like-flag"] :=
  ⟨by decide, by decide⟩

/-- C1 (amended): for every registry and loop state not yet in passthrough,
a double-dash token switches to passthrough mode, is itself emitted into
the positional output, and every subsequent token is emitted verbatim and
in order, with the parse succeeding. -/
theorem c1_amended_theorem (reg : Registry) (rem : List String)
    (fl : Option String) (ts : List String) :
    parseLoop reg rem fl false ("--" :: ts) = .ok (rem ++ "--" :: ts) reg := by
  have hstep : parseStep reg fl false "--" = .cont reg ["--"] fl true := by
    simp [parseStep]
  simp only [parseLoop, hstep]
  rw [parseLoop_passthrough]
  simp

/-- C2 (corrected): contrary to the claim, with boolean flags `a` and `b`
registered, `parse(["-ba", "rest"])` returns `[]`, not `["rest"]`: the
token after the cluster is consumed as a flag value. -/
theorem c2_counterexample :
    parse regABf ["-ba", "rest"] = ParseOutcome.ok [] regABt ∧
    ([] : List String) ≠ ["rest"] :=
  ⟨by decide, by decide⟩

/-- C2 (amended): after a fully-resolving multi-letter cluster the parser
is NOT back in plain scanning — it is awaiting a value for the whole
cluster text, so the immediately following token is consumed as that
(nonexistent) flag's value and dropped. -/
theorem c2_amended_theorem (reg : Registry) (rem rest : List String)
    (tok name v : String)
    (h1 : tok ≠ "--") (h2 : parseName tok = some name)
    (h3 : hasFlag reg name = some false)
    (h4 : ∀ x ∈ name.data, hasFlag reg (String.mk [x]) = some true)
    (h5 : lookupFlag (clusterActivate reg name.data) name = none)
    (h6 : v ≠ "--") :
    parseLoop reg rem none false (tok :: v :: rest) =
      parseLoop (clusterActivate reg name.data) rem none false rest := by
  have hstep : parseStep reg none false tok =
      .cont (clusterActivate reg name.data) [] (some name) false := by
    simp [parseStep, h1, h2, h3, clusterLoop_done name.data reg h4,
      afterCluster, h5]
  have hstep2 : parseStep (clusterActivate reg name.data) (some name) false v =
      .cont (clusterActivate reg name.data) [] none false := by
    simp [parseStep, h6, h5]
  simp only [parseLoop, hstep, hstep2]
  simp

/-- C2 (witness): the amended cluster behavior at the concrete two-boolean
registry and `["-ba", "rest"]`. -/
theorem c2_amended_witness :
    parseName "-ba" = some "ba" ∧
    hasFlag regABf "ba" = some false ∧
    lookupFlag (clusterActivate regABf ("ba" : String).data) "ba" = none ∧
    parseLoop regABf [] none false ["-ba", "rest"] =
      parseLoop (clusterActivate regABf ("ba" : String).data) [] none false [] :=
  ⟨by decide, by decide, by decide,
    c2_amended_theorem regABf [] [] "-ba" "ba" "rest" (by decide) (by decide)
      (by decide) (by decide) (by decide) (by decide)⟩

/-- C3 (corrected): the round trip fails for bool, which the claim
explicitly includes: binding a bool slot (initially false) and parsing
`["-x", render(false)]` activates the slot to true — not to the rendered
value false — and the rendered text ends up positional. -/
theorem c3_counterexample :
    renderVal (Val.vbool false) = some "false" ∧
    parse [("x", ⟨"x", .vbool false, ""⟩)] ["-x", "false"] =
      ParseOutcome.ok ["false"] [("x", ⟨"x", .vbool true, ""⟩)] ∧
    Val.vbool true ≠ Val.vbool false :=
  ⟨by decide, by decide, by decide⟩

/-- C3 (amended): for every slot whose current value does not activate
(its rendering is not true/false — which excludes bool slots) and every
target value whose rendering is not the literal double-dash and parses back
to itself, `parse(["-x", render(v)])` succeeds with the slot equal to `v`
and no positional output. -/
theorem c3_amended_theorem (v0 v : Val) (s m : String)
    (_hren : renderVal v = some s) (hs : s ≠ "--")
    (hact : tryActivate v0 = (v0, some m))
    (hinv : parseFromString v0 s = (v, none)) :
    parse [("x", ⟨"x", v0, ""⟩)] ["-x", s] =
      .ok [] [("x", ⟨"x", v, ""⟩)] := by
  have hpn : parseName "-x" = some "x" := by decide
  have hstep1 : parseStep [("x", ⟨"x", v0, ""⟩)] none false "-x" =
      .cont [("x", ⟨"x", v0, ""⟩)] [] (some "x") false := by
    simp [parseStep, hpn, hasFlag, lookupFlag, afterCluster, hact, setVal]
  have hstep2 : parseStep [("x", ⟨"x", v0, ""⟩)] (some "x") false s =
      .cont [("x", ⟨"x", v, ""⟩)] [] none false := by
    simp [parseStep, hs, lookupFlag, hinv, setVal]
  simp only [parse, parseLoop, hstep1, hstep2]
  simp

/-- C3 (witness): the amended round trip at an integer slot and value 37. -/
theorem c3_amended_witness :
    renderVal (Val.vint 37) = some "37" ∧
    ("37" : String) ≠ "--" ∧
    tryActivate (Val.vint 0) =
      (Val.vint 0, some "bound value should be of type bool") ∧
    parseFromString (Val.vint 0) "37" = (Val.vint 37, none) ∧
    parse [("x", ⟨"x", Val.vint 0, ""⟩)] ["-x", "37"] =
      ParseOutcome.ok [] [("x", ⟨"x", Val.vint 37, ""⟩)] :=
  ⟨by decide, by decide, by decide, by decide,
    c3_amended_theorem (Val.vint 0) (Val.vint 37) "37"
      "bound value should be of type bool" (by decide) (by decide) (by decide)
      (by decide)⟩

/-- C4 (corrected): contrary to the claim, a failing list conversion leaves
the slot partially mutated: parsing "1,x" into an empty list slot fails
yet leaves the element 1 pushed. -/
theorem c4_counterexample :
    parseFromString (Val.vlist []) "1,x" =
      (Val.vlist [1], some "invalid digit found in string") ∧
    Val.vlist [1] ≠ Val.vlist [] :=
  ⟨by decide, by decide⟩

/-- C4 (amended): for every SCALAR bound value, a failing text conversion
leaves the stored value exactly as it was before the call; the list kind is
excluded because it keeps the elements pushed before the failure. -/
theorem c4_amended_theorem (v v2 : Val) (s msg : String)
    (hscalar : isScalar v = true)
    (h : parseFromString v s = (v2, some msg)) : v2 = v := by
  cases v with
  | vstr s0 => simp [parseFromString] at h
  | vint n =>
    cases hp : parseI32 s with
    | ok k => simp [parseFromString, hp] at h
    | error e =>
      simp [parseFromString, hp] at h
      exact h.1.symm
  | vchar c =>
    cases hp : parseRustChar s with
    | ok k => simp [parseFromString, hp] at h
    | error e =>
      simp [parseFromString, hp] at h
      exact h.1.symm
  | vbool b =>
    cases hp : parseRustBool s with
    | ok k => simp [parseFromString, hp] at h
    | error e =>
      simp [parseFromString, hp] at h
      exact h.1.symm
  | vlist l => simp [isScalar] at hscalar

/-- C4 (witness): failure on an integer slot leaves the slot unchanged. -/
theorem c4_amended_witness :
    isScalar (Val.vint 5) = true ∧
    parseFromString (Val.vint 5) "xyz" =
      (Val.vint 5, some "ParseIntError { kind: InvalidDigit }") ∧
    Val.vint 5 = Val.vint 5 :=
  ⟨by decide, by decide,
    c4_amended_theorem (Val.vint 5) (Val.vint 5) "xyz"
      "ParseIntError { kind: InvalidDigit }" (by decide) (by decide)⟩

/-- C5 (confirmed): for every bound value, try_activate succeeds exactly
when the value's current textual rendering is true or false, in which case
the new slot renders as true; otherwise it fails with the message
"bound value should be of type bool" and leaves the slot unchanged. -/
theorem c5_theorem (v : Val) :
    ((tryActivate v).2 = none →
      (renderVal v = some "true" ∨ renderVal v = some "false") ∧
        renderVal (tryActivate v).1 = some "true") ∧
    ((tryActivate v).2 ≠ none →
      renderVal v ≠ some "true" ∧ renderVal v ≠ some "false" ∧
        (tryActivate v).2 = some "bound value should be of type bool" ∧
        (tryActivate v).1 = v) := by
  cases v with
  | vstr s =>
    by_cases h1 : s = "true"
    · subst h1; exact ⟨fun _ => by decide, fun hne => absurd (by decide) hne⟩
    · by_cases h2 : s = "false"
      · subst h2; exact ⟨fun _ => by decide, fun hne => absurd (by decide) hne⟩
      · have ha : tryActivate (.vstr s) =
            (.vstr s, some "bound value should be of type bool") := by
          simp [tryActivate, renderVal, h1, h2]
        rw [ha]
        exact ⟨fun hh => by simp at hh,
          fun _ => ⟨by simp [renderVal, h1], by simp [renderVal, h2], rfl, rfl⟩⟩
  | vint n =>
    rw [tryActivate_vint n]
    exact ⟨fun hh => by simp at hh,
      fun _ => ⟨by simp [renderVal, renderInt_ne_true n],
        by simp [renderVal, renderInt_ne_false n], rfl, rfl⟩⟩
  | vchar c =>
    rw [tryActivate_vchar c]
    exact ⟨fun hh => by simp at hh,
      fun _ => ⟨by simp [renderVal, mkSingle_ne_true c],
        by simp [renderVal, mkSingle_ne_false c], rfl, rfl⟩⟩
  | vbool b =>
    cases b
    · exact ⟨fun _ => by decide, fun hne => absurd (by decide) hne⟩
    · exact ⟨fun _ => by decide, fun hne => absurd (by decide) hne⟩
  | vlist l =>
    exact ⟨fun hh => by simp [tryActivate, renderVal] at hh,
      fun _ => ⟨by simp [renderVal], by simp [renderVal], rfl, rfl⟩⟩

/-- C5 (witness): activation at a concrete bool slot and a concrete
non-boolean string slot. -/
theorem c5_witness :
    renderVal (tryActivate (Val.vbool false)).1 = some "true" ∧
    (tryActivate (Val.vstr "abc")).2 =
      some "bound value should be of type bool" :=
  ⟨((c5_theorem (Val.vbool false)).1 (by decide)).2,
    (((c5_theorem (Val.vstr "abc")).2 (by decide)).2).2.1⟩

/-- C6 (confirmed): while scanning, a flag-shaped token whose stripped name
does not resolve and whose letters contain a (first such) cleanly
unresolvable one makes parse abort with UnknownFlag naming the stripped
text, discarding every positional accumulated so far. -/
theorem c6_theorem (reg : Registry) (rem rest : List String) (tok name : String)
    (pre : List Char) (c : Char) (post : List Char)
    (h1 : tok ≠ "--") (h2 : parseName tok = some name)
    (h3 : hasFlag reg name = some false)
    (h4 : name.data = pre ++ c :: post)
    (h5 : ∀ x ∈ pre, hasFlag reg (String.mk [x]) = some true)
    (h6 : hasFlag reg (String.mk [c]) = some false) :
    parseLoop reg rem none false (tok :: rest) =
      .error (.UnknownFlag name) (clusterActivate reg pre) := by
  simp only [parseLoop,
    parseStep_cluster_unknown reg tok name pre c post h1 h2 h3 h4 h5 h6]
  rfl

/-- C6 (witness): `parse(["-z"])` with no flag registered fails with
UnknownFlag naming z. -/
theorem c6_witness :
    ("-z" : String) ≠ "--" ∧
    parseName "-z" = some "z" ∧
    hasFlag [] "z" = some false ∧
    parseLoop [] [] none false ["-z"] =
      ParseOutcome.error (FlagError.UnknownFlag "z") [] :=
  ⟨by decide, by decide, by decide,
    c6_theorem [] [] [] "-z" "z" [] 'z' [] (by decide) (by decide) (by decide)
      (by decide) (by simp) (by decide)⟩

/-- C7 (confirmed): with boolean flags a and b registered (initially
false), `parse(["-ba"])` succeeds and leaves both slots true. -/
theorem c7_theorem : parse regABf ["-ba"] = ParseOutcome.ok [] regABt := by
  decide

/-- C8 (corrected): contrary to the claim, splitting `["-x", "foo"]`
(which crosses no double-dash/passthrough boundary) into `["-x"]` and
`["foo"]` changes the result: sequentially the dangling flag is dropped
and foo is positional, while the single call binds foo to the slot. -/
theorem c8_counterexample :
    parse [("x", ⟨"x", .vstr "", ""⟩)] ["-x"] =
      ParseOutcome.ok [] [("x", ⟨"x", .vstr "", ""⟩)] ∧
    parse [("x", ⟨"x", .vstr "", ""⟩)] ["foo"] =
      ParseOutcome.ok ["foo"] [("x", ⟨"x", .vstr "", ""⟩)] ∧
    parse [("x", ⟨"x", .vstr "", ""⟩)] ["-x", "foo"] =
      ParseOutcome.ok [] [("x", ⟨"x", .vstr "foo", ""⟩)] ∧
    ([("x", (⟨"x", .vstr "foo", ""⟩ : FlagEntry))] : Registry) ≠
      [("x", ⟨"x", .vstr "", ""⟩)] ∧
    ([] : List String) ≠ [] ++ ["foo"] :=
  ⟨by decide, by decide, by decide, by decide, by decide⟩

/-- C8 (amended): when the first slice additionally ends in the plain
scanning state — no pending flag awaiting a value and passthrough not
entered — parsing the slices sequentially (the second call continuing on
the registry the first produced) equals one parse of the concatenation,
with the positional outputs concatenated. -/
theorem c8_amended_theorem (reg reg1 : Registry) (s1 s2 rem1 : List String)
    (h : runSteps reg [] none false s1 = .cont reg1 rem1 none false) :
    parse reg (s1 ++ s2) = seqCombine rem1 (parse reg1 s2) := by
  unfold parse
  rw [parseLoop_eq_runSteps, runSteps_append, h]
  dsimp only
  rw [parseLoop_eq_runSteps]
  have h2 := runSteps_rem s2 reg1 rem1 [] none false
  rw [List.append_nil] at h2
  rw [h2]
  cases hr : runSteps reg1 [] none false s2 with
  | cont r rm f a2 => simp [seqCombine]
  | halt hh => cases hh <;> simp [seqCombine, haltedOutcome]

/-- C8 (witness): the amended composition at a boolean flag slice followed
by a positional slice. -/
theorem c8_amended_witness :
    runSteps [("a", ⟨"a", Val.vbool false, ""⟩)] [] none false ["-a"] =
      RunRes.cont [("a", ⟨"a", Val.vbool true, ""⟩)] [] none false ∧
    parse [("a", ⟨"a", Val.vbool false, ""⟩)] (["-a"] ++ ["rest"]) =
      seqCombine [] (parse [("a", ⟨"a", Val.vbool true, ""⟩)] ["rest"]) :=
  ⟨by decide,
    c8_amended_theorem [("a", ⟨"a", Val.vbool false, ""⟩)]
      [("a", ⟨"a", Val.vbool true, ""⟩)] ["-a"] ["rest"] [] (by decide)⟩

/-- C9 (confirmed): if the token stream ends while a flag is still pending
a value, parse returns Ok with the positional list and slot states built so
far — the pending flag is dropped without error and without further slot
mutation. -/
theorem c9_theorem (reg reg1 : Registry) (args rem1 : List String)
    (name : String) (afp1 : Bool)
    (h : runSteps reg [] none false args = .cont reg1 rem1 (some name) afp1) :
    parse reg args = .ok rem1 reg1 := by
  unfold parse
  rw [parseLoop_eq_runSteps, h]

/-- C9 (witness): a string-typed flag with no following value is dropped
leniently. -/
theorem c9_witness :
    runSteps [("x", ⟨"x", Val.vstr "", ""⟩)] [] none false ["-x"] =
      RunRes.cont [("x", ⟨"x", Val.vstr "", ""⟩)] [] (some "x") false ∧
    parse [("x", ⟨"x", Val.vstr "", ""⟩)] ["-x"] =
      ParseOutcome.ok [] [("x", ⟨"x", Val.vstr "", ""⟩)] :=
  ⟨by decide,
    c9_theorem [("x", ⟨"x", Val.vstr "", ""⟩)] [("x", ⟨"x", Val.vstr "", ""⟩)]
      ["-x"] [] "x" false (by decide)⟩

/-- C10 (confirmed): `parse(["-"])` panics — the empty stripped name
reaches has_flag, whose one-byte slice of the empty string is a panic, so
neither Ok nor UnknownFlag is ever produced (shown for every registry
without an empty-string key, i.e. whenever the first lookup misses). -/
theorem c10_theorem (reg : Registry) (h : lookupFlag reg "" = none) :
    parse reg ["-"] = ParseOutcome.panicked := by
  have hpn : parseName "-" = some "" := by decide
  have hfb : firstByteSlice "" = none := by decide
  have hhf : hasFlag reg "" = none := by simp [hasFlag, h, hfb]
  have hstep : parseStep reg none false "-" = .halt .panicked := by
    simp [parseStep, hpn, hhf, show ("-" : String) ≠ "--" from by decide]
  simp only [parse, parseLoop, hstep]
  rfl

/-- C10 (witness): the panic at the empty registry. -/
theorem c10_witness :
    lookupFlag [] "" = none ∧ parse [] ["-"] = ParseOutcome.panicked :=
  ⟨rfl, c10_theorem [] rfl⟩

end CcCut
